import Mathlib

/-!
Shallow embedding of the statistics/streak/goal-tracking engine of the
LeetCode tracker CLI (src/leetcode_fetcher.py), together with proofs of
the specified properties.

Conventions of the embedding:
* a calendar date is an `Int` (a day number); `date.today()` becomes an
  explicit `today : Int` parameter;
* a timestamp (`datetime`, stored with `isoformat`) is an `Int` counted in
  seconds; its UTC calendar date is obtained by flooring division by 86400,
  mirroring `datetime.fromisoformat(...).date()`;
* stateful code (file-backed caches, the solved ledger, the goal store)
  becomes explicit state passing; fallible operations return `Option`;
* the Mersenne-Twister stream behind `random.seed(seed)` followed by
  successive `random.choice` calls is abstracted as a deterministic
  function `rng : Nat → Nat → Nat` giving the value of the k-th draw after
  seeding with `seed`; `random.choice(lst)` becomes indexing by
  `rng seed k % lst.length`, consuming one draw.
-/

/-- `Difficulty` enumeration from the source (`Easy`, `Medium`, `Hard`). -/
inductive Difficulty : Type
  | Easy
  | Medium
  | Hard
deriving DecidableEq

/-- `GoalType` enumeration from the source. -/
inductive GoalType : Type
  | TOTAL_SOLVED
  | DAILY_STREAK
  | DIFFICULTY_COUNT
  | WEEKLY_TARGET
deriving DecidableEq

/-- `GoalStatus` enumeration from the source. -/
inductive GoalStatus : Type
  | ACTIVE
  | COMPLETED
  | FAILED
deriving DecidableEq

/-- `Problem` dataclass. `ac_rate` is a float in the source; its numeric
value plays no role in any verified logic, so it is embedded as `Int`. -/
structure Problem : Type where
  id : String
  title : String
  slug : String
  difficulty : Difficulty
  ac_rate : Int
  paid_only : Bool
deriving DecidableEq

/-- `SolvedProblem` dataclass; `completed_at` is the UTC completion
timestamp in seconds (the source stores `datetime.utcnow().isoformat()`). -/
structure SolvedProblem : Type where
  problem_id : String
  title : String
  slug : String
  difficulty : Difficulty
  completed_at : Int
deriving DecidableEq

/-- `SolvedProblem.from_problem`: builds the ledger record from a catalog
problem, stamped with the current UTC time `now`. -/
def SolvedProblem.from_problem (p : Problem) (now : Int) : SolvedProblem :=
  ⟨p.id, p.title, p.slug, p.difficulty, now⟩

/-- `Goal` dataclass; `created_date` and `deadline` are day numbers. -/
structure Goal : Type where
  id : Int
  name : String
  type : GoalType
  target : Int
  current : Int
  difficulty : Option Difficulty
  created_date : Int
  deadline : Int
  status : GoalStatus
deriving DecidableEq

/-- `UserStats` dataclass; the heatmap is the list of its symbols. -/
structure UserStats : Type where
  total_solved : Nat
  by_difficulty : Difficulty → Nat
  current_streak : Nat
  longest_streak : Nat
  heatmap : List Char

/-- UTC calendar date (day number) of a timestamp in seconds, mirroring
`datetime.fromisoformat(ts).date()`. -/
def dateOf (ts : Int) : Int :=
  Int.fdiv ts 86400

namespace StatsService

/-- The sorted set of distinct calendar dates carrying at least one solve:
`sorted({datetime.fromisoformat(p.completed_at).date() for p in solved_problems})`. -/
def solvedDates (ps : List SolvedProblem) : List Int :=
  List.insertionSort (· ≤ ·) ((ps.map (fun p => dateOf p.completed_at)).dedup)

/-- The scan over `dates[1:]` in `_calculate_streaks` computing the longest
streak: state `(prev, longest, temp)` matches the loop variables
`(dates[i-1], longest_streak, temp_streak)`. -/
def streakGo : Int → Nat → Nat → List Int → Nat
  | _, longest, _, [] => longest
  | prev, longest, temp, d :: rest =>
    if d - prev = 1 then streakGo d (max longest (temp + 1)) (temp + 1) rest
    else streakGo d longest 1 rest

/-- The `while check_date in set(dates)` loop of `_calculate_streaks`,
realised with fuel; `dates.length` fuel is always sufficient because each
successful membership test consumes a distinct element of `dates`. -/
def curGo (dates : List Int) : Nat → Int → Nat
  | 0, _ => 0
  | fuel + 1, check =>
    if check ∈ dates then curGo dates fuel (check - 1) + 1 else 0

/-- `StatsService._calculate_streaks`: returns
`(current_streak, max(longest_streak, 1))`, or `(0, 0)` for an empty
ledger. -/
def _calculate_streaks (ps : List SolvedProblem) (today : Int) : Nat × Nat :=
  if ps.isEmpty then (0, 0)
  else
    let dates := solvedDates ps
    let longest :=
      match dates with
      | [] => 1
      | d0 :: rest => streakGo d0 1 1 rest
    (curGo dates dates.length today, max longest 1)

/-- `HEATMAP_LEVELS` as iterated by
`sorted(HEATMAP_LEVELS.items(), reverse=True)`: thresholds descending. -/
def heatLevelsDesc : List (Nat × Char) :=
  [(4, '🔴'), (3, '🟠'), (2, '🟡'), (1, '🟢'), (0, '⚫')]

/-- The inner `for threshold, emoji in ...: if count >= threshold: append;
break` loop of `_generate_heatmap`: first matching threshold wins, `none`
if no threshold matches. -/
def pickSymbol (count : Nat) : List (Nat × Char) → Option Char
  | [] => none
  | (threshold, emoji) :: rest =>
    if count ≥ threshold then some emoji else pickSymbol count rest

/-- The trailing window `[today - timedelta(days=i) for i in
range(days-1, -1, -1)]`, oldest first. -/
def dateRange (today : Int) (days : Nat) : List Int :=
  (List.range days).map (fun j => today - ((days - 1 - j : Nat) : Int))

/-- Per-day solve count: the value `daily_counts.get(day_date, 0)` where
`daily_counts` counts solves whose completion date lies in the window. -/
def solveCountOn (ps : List SolvedProblem) (window : List Int) (d : Int) : Nat :=
  (ps.filter (fun p =>
    decide (dateOf p.completed_at = d ∧ dateOf p.completed_at ∈ window))).length

/-- `StatsService._generate_heatmap`. -/
def _generate_heatmap (ps : List SolvedProblem) (today : Int) (days : Nat) : List Char :=
  if ps.isEmpty then List.replicate days '⚫'
  else
    let window := dateRange today days
    window.filterMap (fun day => pickSymbol (solveCountOn ps window day) heatLevelsDesc)

/-- `StatsService.calculate_stats`. -/
def calculate_stats (ps : List SolvedProblem) (today : Int) : UserStats :=
  if ps.isEmpty then
    { total_solved := 0
      by_difficulty := fun _ => 0
      current_streak := 0
      longest_streak := 0
      heatmap := _generate_heatmap [] today 30 }
  else
    { total_solved := ps.length
      by_difficulty := fun d => (ps.filter (fun p => decide (p.difficulty = d))).length
      current_streak := (_calculate_streaks ps today).1
      longest_streak := (_calculate_streaks ps today).2
      heatmap := _generate_heatmap ps today 30 }

end StatsService

namespace GoalService

/-- The `current` recomputation branch of `GoalService.update_goal_progress`
for one goal: the chain of `if goal.type == ...` updates. A
`DIFFICULTY_COUNT` goal without a difficulty filter falls through every
branch and keeps its previous `current`. `weekly` is `len(recent_solves)`,
the count of ledger entries completed within the trailing 7 days. -/
def recomputeCurrent (stats : UserStats) (weekly : Nat) (g : Goal) : Int :=
  match g.type with
  | .TOTAL_SOLVED => stats.total_solved
  | .DAILY_STREAK => stats.current_streak
  | .DIFFICULTY_COUNT =>
    match g.difficulty with
    | some d => stats.by_difficulty d
    | none => g.current
  | .WEEKLY_TARGET => weekly

/-- The per-goal body of the `for goal in goals` loop in
`GoalService.update_goal_progress`: non-active goals are skipped
(`continue`); active goals get a fresh `current` and then the completion
check runs before the deadline check (`days_remaining < 0` is
`deadline - today < 0`). -/
def refreshGoal (stats : UserStats) (weekly : Nat) (today : Int) (g : Goal) : Goal :=
  if g.status ≠ GoalStatus.ACTIVE then g
  else
    let c := recomputeCurrent stats weekly g
    if c ≥ g.target then { g with current := c, status := GoalStatus.COMPLETED }
    else if g.deadline - today < 0 then { g with current := c, status := GoalStatus.FAILED }
    else { g with current := c }

/-- `GoalService.update_goal_progress` on the loaded goal list. -/
def update_goal_progress (goals : List Goal) (stats : UserStats) (weekly : Nat)
    (today : Int) : List Goal :=
  goals.map (refreshGoal stats weekly today)

/-- `GoalService.create_goal`: assigns `max(ids, default=0) + 1` and appends
a fresh active goal with deadline `today + deadline_days`. -/
def create_goal (goals : List Goal) (name : String) (goal_type : GoalType) (target : Int)
    (difficulty : Option Difficulty) (deadline_days : Int) (today : Int) : List Goal :=
  let goal_id := (goals.map (fun g => g.id)).foldr max 0 + 1
  goals ++ [{ id := goal_id
              name := name
              type := goal_type
              target := target
              current := 0
              difficulty := difficulty
              created_date := today
              deadline := today + deadline_days
              status := GoalStatus.ACTIVE }]

/-- `GoalService.create_starter_goals`: refuses (`none`, the source returns
`False`) when any goal exists, otherwise creates the three fixed starter
goals in order. -/
def create_starter_goals (goals : List Goal) (today : Int) : Option (List Goal) :=
  if goals.isEmpty then
    some (create_goal
            (create_goal
              (create_goal goals "First Steps" GoalType.TOTAL_SOLVED 5 none 14 today)
              "Weekly Warrior" GoalType.WEEKLY_TARGET 3 none 7 today)
            "Streak Builder" GoalType.DAILY_STREAK 3 none 10 today)
  else none

end GoalService

namespace ProblemService

/-- The filter `not problem.paid_only and problem.id not in solved_ids`
applied to the catalog (given as the list `all_problems.values()`). -/
def freeUnsolved (catalog : List Problem) (solvedIds : List String) : List Problem :=
  catalog.filter (fun p => !p.paid_only && !(solvedIds.any (fun s => decide (s = p.id))))

/-- One difficulty bucket of `problems_by_diff`. -/
def tierOf (l : List Problem) (d : Difficulty) : List Problem :=
  l.filter (fun p => decide (p.difficulty = d))

/-- `int(seed_date.strftime("%Y%m%d"))`: the integer YYYYMMDD encoding of
the date used to seed the generator. -/
def dateSeed (y m d : Nat) : Nat :=
  y * 10000 + m * 100 + d

/-- `random.choice(problems) if problems else None`: one uniform draw over
a nonempty candidate list, consuming one value of the seeded stream; no
draw for an empty list. Returns the choice and the next draw index. -/
def chooseFrom (rng : Nat → Nat → Nat) (seed k : Nat) :
    List Problem → Option Problem × Nat
  | [] => (none, k)
  | p :: ps =>
    (some ((p :: ps).get ⟨rng seed k % (ps.length + 1), Nat.mod_lt _ (Nat.succ_pos _)⟩),
     k + 1)

/-- The selection core of `ProblemService.generate_daily_problems`: filter
to free unsolved problems, bucket by difficulty, seed with the date and
draw once per nonempty tier in the fixed order Easy, Medium, Hard (the
iteration order of the `Difficulty` enum). Returns the selection and the
total number of draws consumed. -/
def select_daily_problems (rng : Nat → Nat → Nat) (catalog : List Problem)
    (solved : List SolvedProblem) (seed : Nat) : (Difficulty → Option Problem) × Nat :=
  let fu := freeUnsolved catalog (solved.map (fun sp => sp.problem_id))
  let e := chooseFrom rng seed 0 (tierOf fu Difficulty.Easy)
  let m := chooseFrom rng seed e.2 (tierOf fu Difficulty.Medium)
  let h := chooseFrom rng seed m.2 (tierOf fu Difficulty.Hard)
  (fun d =>
    match d with
    | Difficulty.Easy => e.1
    | Difficulty.Medium => m.1
    | Difficulty.Hard => h.1,
   h.2)

/-- `ProblemService.get_solved_problems` / `save_solved_problems` are the
whole-document persistence boundary; ledger mutations below take and
return the ledger explicitly. `ProblemService.mark_problem_solved`: `none`
models the `return False` no-op when a record with the id already exists;
otherwise appends one freshly stamped record. -/
def mark_problem_solved (solved : List SolvedProblem) (problem_id : String)
    (problem : Problem) (now : Int) : Option (List SolvedProblem) :=
  if solved.any (fun sp => decide (sp.problem_id = problem_id)) then none
  else some (solved ++ [SolvedProblem.from_problem problem now])

/-- `ProblemService.mark_problem_unsolved`: removes every record with the
id; `none` models the `return False` no-op when nothing was removed. -/
def mark_problem_unsolved (solved : List SolvedProblem) (problem_id : String) :
    Option (List SolvedProblem) :=
  let remaining := solved.filter (fun sp => decide (sp.problem_id ≠ problem_id))
  if remaining.length = solved.length then none else some remaining

end ProblemService

namespace LeetCodeAPI

/-- `MAX_RETRIES` constant. -/
def MAX_RETRIES : Nat := 3

/-- The retry loop of `LeetCodeAPI.fetch_all_problems`. `attempts i` is the
outcome of the i-th network attempt (`none` abstracts any
`ClientError`/`KeyError`/`ValueError`: non-success response or malformed
payload). The second component collects the `asyncio.sleep(2 ** attempt)`
backoff delays. The fuel-0 branch mirrors the unreachable `return {}`
after the loop. -/
def fetchGo (attempts : Nat → Option (List Problem)) (i : Nat) :
    Nat → Except String (List Problem) × List Nat
  | 0 => (Except.ok [], [])
  | remaining + 1 =>
    match attempts i with
    | some ps => (Except.ok ps, [])
    | none =>
      if remaining = 0 then (Except.error "fetch failed", [])
      else
        let r := fetchGo attempts (i + 1) remaining
        (r.1, 2 ^ i :: r.2)

/-- `LeetCodeAPI.fetch_all_problems`: up to `MAX_RETRIES` attempts starting
at attempt 0, re-raising the final failure. -/
def fetch_all_problems (attempts : Nat → Option (List Problem)) :
    Except String (List Problem) × List Nat :=
  fetchGo attempts 0 MAX_RETRIES

end LeetCodeAPI

/-- Result of the cache-refresh path of `ProblemService.get_all_problems`:
the returned catalog, the persisted `ALL_PROBLEMS_CACHE` content after the
call, whether the user-visible error message was printed, and the backoff
delays slept. -/
structure RefreshOutcome : Type where
  problems : List Problem
  cacheAfter : List Problem
  errorSurfaced : Bool
  delays : List Nat

namespace ProblemService

/-- The fetch branch of `ProblemService.get_all_problems` (cache invalid or
`force_refresh`): on success the fresh catalog is cached; on failure after
exhausted retries the error is printed (`errorSurfaced`) and the stale
cached content is returned unchanged — nothing partial is written. -/
def get_all_problems_refresh (attempts : Nat → Option (List Problem))
    (cachedFallback : List Problem) : RefreshOutcome :=
  match LeetCodeAPI.fetch_all_problems attempts with
  | (Except.ok ps, ds) =>
    { problems := ps, cacheAfter := ps, errorSurfaced := false, delays := ds }
  | (Except.error _, ds) =>
    { problems := cachedFallback, cacheAfter := cachedFallback, errorSurfaced := true,
      delays := ds }

end ProblemService

/-- The persistent state touched by the daily-selection pipeline: the
network as an oracle `net` giving the outcome of the n-th catalog refresh
(`some catalog` when the fetch succeeds, `none` when it fails after the
exhausted retries), the `ALL_PROBLEMS_CACHE` document with its freshness
bit (`is_cache_valid`), the per-date `CACHE_FILE` document (an
association list keyed by the date seed, shadowing on update like a dict
write), the solved ledger, and counters for pseudo-random draws and
network fetch invocations performed. -/
structure DailyState : Type where
  net : Nat → Option (List Problem)
  catalogCache : List Problem
  catalogFresh : Bool
  dailyCache : List (Nat × (Difficulty → Option Problem))
  solved : List SolvedProblem
  drawCount : Nat
  fetchCount : Nat

namespace ProblemService

/-- `ProblemService.get_all_problems` on `DailyState`: a valid cache is
returned as is without touching the network; otherwise one network fetch
is invoked — on success the fresh catalog is written to the cache, which
becomes valid; on failure the error is printed and the stale cache
content is returned with nothing written, so the cache stays invalid and
a later call will fetch again. -/
def get_all_problems (s : DailyState) : List Problem × DailyState :=
  if s.catalogFresh then (s.catalogCache, s)
  else
    match s.net s.fetchCount with
    | some ps =>
      (ps, { s with catalogCache := ps, catalogFresh := true,
                    fetchCount := s.fetchCount + 1 })
    | none => (s.catalogCache, { s with fetchCount := s.fetchCount + 1 })

/-- `ProblemService.generate_daily_problems`: loads the catalog (fetching
if the cache is stale), runs the seeded selection, and writes the result
into the per-date cache key — it never reads that key first. -/
def generate_daily_problems (rng : Nat → Nat → Nat) (seed : Nat) (s : DailyState) :
    (Difficulty → Option Problem) × DailyState :=
  let cs := get_all_problems s
  let pr := select_daily_problems rng cs.1 cs.2.solved seed
  (pr.1,
   { cs.2 with dailyCache := (seed, pr.1) :: cs.2.dailyCache,
               drawCount := cs.2.drawCount + pr.2 })

/-- `ProblemService.get_daily_problems`: the read-only cache path — returns
the cached selection for the date key, or all `None` when absent; never
draws and never fetches. -/
def get_daily_problems (s : DailyState) (seed : Nat) : Difficulty → Option Problem :=
  match s.dailyCache.lookup seed with
  | some sel => sel
  | none => fun _ => none

end ProblemService

/-- Reported outcome of `LeetCodeTracker.mark_problem_solved`. -/
inductive MarkOutcome : Type
  | notFound
  | alreadySolved
  | success
deriving DecidableEq

namespace LeetCodeTracker

/-- `LeetCodeTracker.fetch_daily_problems` delegates to
`ProblemService.generate_daily_problems` (the subsequent display reads the
ledger but mutates nothing). -/
def fetch_daily_problems (rng : Nat → Nat → Nat) (seed : Nat) (s : DailyState) :
    (Difficulty → Option Problem) × DailyState :=
  ProblemService.generate_daily_problems rng seed s

/-- `LeetCodeTracker.mark_problem_solved`: resolves the problem only
through `get_all_problems` (the catalog, as a lookup function); reports
"not found" before any already-solved check, and otherwise delegates to
`ProblemService.mark_problem_solved`. On success the source additionally
triggers `update_goal_progress`; the ledger outcome modelled here is
unaffected by that refresh. -/
def mark_problem_solved (catalog : String → Option Problem)
    (solved : List SolvedProblem) (problem_id : String) (now : Int) :
    MarkOutcome × List SolvedProblem :=
  match catalog problem_id with
  | none => (MarkOutcome.notFound, solved)
  | some problem =>
    match ProblemService.mark_problem_solved solved problem_id problem now with
    | none => (MarkOutcome.alreadySolved, solved)
    | some newLedger => (MarkOutcome.success, newLedger)

/-- `len(recent_solves)` in `update_goal_progress`: solves whose completion
timestamp is within the trailing 7 days of `now`. -/
def weeklyCount (solved : List SolvedProblem) (now : Int) : Nat :=
  (solved.filter (fun p => decide (p.completed_at ≥ now - 7 * 86400))).length

/-- `LeetCodeTracker.show_profile`: computes and displays the stats, then
refreshes goal progress (which recomputes the same stats from the same
ledger) and displays the refreshed goals. It creates no goals. -/
def show_profile (solved : List SolvedProblem) (goals : List Goal) (today now : Int) :
    UserStats × List Goal :=
  let stats := StatsService.calculate_stats solved today
  (stats, GoalService.update_goal_progress goals stats (weeklyCount solved now) today)

end LeetCodeTracker

namespace ProblemService

/-- The candidate pool of one difficulty tier: free, not-yet-solved
problems of that difficulty. -/
def dailyPool (catalog : List Problem) (solved : List SolvedProblem)
    (t : Difficulty) : List Problem :=
  tierOf (freeUnsolved catalog (solved.map (fun sp => sp.problem_id))) t

/-- How many pseudo-random draws a tier consumes: none when empty, one
otherwise. -/
def tierDraw (l : List Problem) : Nat :=
  if l = [] then 0 else 1

end ProblemService

namespace StatsService

/-- The discrete activity level of a daily solve count: 0, 1, 2, 3 or 4
(the ≥ 4 bucket). -/
def heatLevel (c : Nat) : Nat :=
  min c 4

/-- The symbol displayed for each activity level. -/
def levelSymbol : Nat → Char
  | 0 => '⚫'
  | 1 => '🟢'
  | 2 => '🟡'
  | 3 => '🟠'
  | _ => '🔴'

end StatsService

/-- A concrete free Easy problem used by several concrete instantiations. -/
def sampleProblem : Problem :=
  ⟨"1", "Two Sum", "two-sum", Difficulty.Easy, 50, false⟩

/-- A concrete ledger with solves on days 8, 9 and 10. -/
def streakSample : List SolvedProblem :=
  [⟨"1", "a", "a", Difficulty.Easy, 10 * 86400⟩,
   ⟨"2", "b", "b", Difficulty.Easy, 9 * 86400⟩,
   ⟨"3", "c", "c", Difficulty.Easy, 8 * 86400⟩]

/-- C2: on a goal-progress refresh only Active goals are re-evaluated (the
whole refresh is a map whose body returns every non-Active goal unchanged,
for every stats/weekly input, i.e. regardless of ledger edits); an Active
goal whose freshly recomputed current reaches its target becomes
Completed — the completion check runs before the deadline check, so this
holds however the deadline compares to today, in particular on the
deadline day itself — and otherwise it becomes Failed exactly when the
deadline has passed, else stays Active. -/
theorem goal_lifecycle (stats : UserStats) (weekly : Nat) (today : Int) (g : Goal)
    (goals : List Goal) :
    (g.status ≠ GoalStatus.ACTIVE → GoalService.refreshGoal stats weekly today g = g) ∧
    (g.status = GoalStatus.ACTIVE →
      (GoalService.recomputeCurrent stats weekly g ≥ g.target →
        GoalService.refreshGoal stats weekly today g
          = { g with current := GoalService.recomputeCurrent stats weekly g,
                     status := GoalStatus.COMPLETED }) ∧
      (GoalService.recomputeCurrent stats weekly g < g.target → g.deadline - today < 0 →
        GoalService.refreshGoal stats weekly today g
          = { g with current := GoalService.recomputeCurrent stats weekly g,
                     status := GoalStatus.FAILED }) ∧
      (GoalService.recomputeCurrent stats weekly g < g.target → 0 ≤ g.deadline - today →
        GoalService.refreshGoal stats weekly today g
          = { g with current := GoalService.recomputeCurrent stats weekly g,
                     status := GoalStatus.ACTIVE })) ∧
    GoalService.update_goal_progress goals stats weekly today
      = goals.map (GoalService.refreshGoal stats weekly today) := by
  refine ⟨fun h => by simp [GoalService.refreshGoal, h],
    fun hA => ⟨fun hge => ?_, fun hlt hdl => ?_, fun hlt hdl => ?_⟩, rfl⟩
  · simp [GoalService.refreshGoal, hA, hge]
  · simp [GoalService.refreshGoal, hA, not_le.mpr hlt, hdl]
  · simp [GoalService.refreshGoal, hA, not_le.mpr hlt, not_lt.mpr hdl]

/-- C2 witness: a Completed goal is returned untouched by a refresh, and an
Active goal meeting its target exactly on its deadline day becomes
Completed. -/
theorem goal_lifecycle_witness :
    (GoalService.refreshGoal
        { total_solved := 0, by_difficulty := fun _ => 0, current_streak := 0,
          longest_streak := 0, heatmap := [] } 0 0
        { id := 1, name := "done", type := GoalType.TOTAL_SOLVED, target := 5, current := 5,
          difficulty := none, created_date := 0, deadline := 0,
          status := GoalStatus.COMPLETED }
      = { id := 1, name := "done", type := GoalType.TOTAL_SOLVED, target := 5, current := 5,
          difficulty := none, created_date := 0, deadline := 0,
          status := GoalStatus.COMPLETED }) ∧
    (GoalService.refreshGoal
        { total_solved := 5, by_difficulty := fun _ => 0, current_streak := 0,
          longest_streak := 0, heatmap := [] } 0 0
        { id := 2, name := "meet", type := GoalType.TOTAL_SOLVED, target := 5, current := 0,
          difficulty := none, created_date := 0, deadline := 0,
          status := GoalStatus.ACTIVE }).status = GoalStatus.COMPLETED := by
  constructor
  · exact (goal_lifecycle _ 0 0 _ []).1 (by decide)
  · rw [((goal_lifecycle
      { total_solved := 5, by_difficulty := fun _ => 0, current_streak := 0,
        longest_streak := 0, heatmap := [] } 0 0
      { id := 2, name := "meet", type := GoalType.TOTAL_SOLVED, target := 5, current := 0,
        difficulty := none, created_date := 0, deadline := 0,
        status := GoalStatus.ACTIVE } []).2.1 rfl).1 (by decide)]

/-- C6 counterexample: with an empty ledger and an empty goal store the
profile view shows zero totals and streak but performs no starter-goal
bootstrap — the goal store stays empty (0 goals, not 3). -/
theorem profile_no_bootstrap_counterexample :
    ((LeetCodeTracker.show_profile [] [] 0 0).2).length = 0 ∧
    ¬ ((LeetCodeTracker.show_profile [] [] 0 0).2).length = 3 ∧
    (LeetCodeTracker.show_profile [] [] 0 0).1.total_solved = 0 ∧
    (LeetCodeTracker.show_profile [] [] 0 0).1.current_streak = 0 := by
  exact ⟨rfl, by decide, rfl, rfl⟩

/-- C6 amended: with an empty ledger the profile view shows
total_solved = 0 and current_streak = 0, and never changes how many goals
exist (so it triggers no bootstrap); the starter-goal bootstrap is a
separate command that produces exactly 3 goals when the goal store is
empty and refuses to run whenever any goal exists, whatever its status. -/
theorem profile_and_starter_bootstrap (solved : List SolvedProblem) (goals : List Goal)
    (today now : Int) :
    (LeetCodeTracker.show_profile [] goals today now).1.total_solved = 0 ∧
    (LeetCodeTracker.show_profile [] goals today now).1.current_streak = 0 ∧
    ((LeetCodeTracker.show_profile solved goals today now).2).length = goals.length ∧
    (∃ gs, GoalService.create_starter_goals [] today = some gs ∧ gs.length = 3) ∧
    (goals ≠ [] → GoalService.create_starter_goals goals today = none) := by
  refine ⟨rfl, rfl, ?_, ⟨_, rfl, rfl⟩, fun h => ?_⟩
  · simp [LeetCodeTracker.show_profile, GoalService.update_goal_progress]
  · cases goals with
    | nil => exact absurd rfl h
    | cons a l => simp [GoalService.create_starter_goals]

/-- C6 witness: the bootstrap refuses to run even when the only existing
goal is already Completed. -/
theorem profile_and_starter_bootstrap_witness :
    GoalService.create_starter_goals
      [{ id := 1, name := "old", type := GoalType.TOTAL_SOLVED, target := 1, current := 1,
         difficulty := none, created_date := 0, deadline := 0,
         status := GoalStatus.COMPLETED }] 0 = none :=
  (profile_and_starter_bootstrap []
    [{ id := 1, name := "old", type := GoalType.TOTAL_SOLVED, target := 1, current := 1,
       difficulty := none, created_date := 0, deadline := 0,
       status := GoalStatus.COMPLETED }] 0 0).2.2.2.2 (by simp)

/-- C5 counterexample: when the catalog misses the id, mark-solved reports
"not found" even though a SolvedRecord with that id already exists in the
ledger, refuting the claim that an existing record is always reported as
"already solved". -/
theorem mark_solved_counterexample :
    (LeetCodeTracker.mark_problem_solved (fun _ => none)
        [⟨"7", "t", "s", Difficulty.Easy, 0⟩] "7" 0).1 = MarkOutcome.notFound ∧
    MarkOutcome.notFound ≠ MarkOutcome.alreadySolved := by
  exact ⟨rfl, by decide⟩

/-- C5 amended: mark-solved resolves the problem only through the catalog
lookup, and that resolution runs first: when the catalog lacks the id the
outcome is "not found" and the ledger is untouched, even if a record with
the id exists (the daily-selection cache is never consulted). When the
catalog has the id, an existing record makes the call a reported
"already solved" no-op, and otherwise exactly one record stamped `now` is
appended and persisted; the per-id uniqueness of the ledger is
preserved. -/
theorem mark_solved_resolution (catalog : String → Option Problem)
    (solved : List SolvedProblem) (problem_id : String) (now : Int) :
    (catalog problem_id = none →
      LeetCodeTracker.mark_problem_solved catalog solved problem_id now
        = (MarkOutcome.notFound, solved)) ∧
    (∀ p, catalog problem_id = some p →
      ((∃ sp ∈ solved, sp.problem_id = problem_id) →
        LeetCodeTracker.mark_problem_solved catalog solved problem_id now
          = (MarkOutcome.alreadySolved, solved)) ∧
      ((∀ sp ∈ solved, sp.problem_id ≠ problem_id) →
        LeetCodeTracker.mark_problem_solved catalog solved problem_id now
          = (MarkOutcome.success, solved ++ [SolvedProblem.from_problem p now]))) ∧
    (∀ p, catalog problem_id = some p → p.id = problem_id →
      (solved.map (fun sp => sp.problem_id)).Nodup →
      (((LeetCodeTracker.mark_problem_solved catalog solved problem_id now).2).map
        (fun sp => sp.problem_id)).Nodup) := by
  refine ⟨fun h => ?_, fun p hp => ⟨fun hex => ?_, fun hnone => ?_⟩, fun p hp hpid hnd => ?_⟩
  · simp [LeetCodeTracker.mark_problem_solved, h]
  · have hany : solved.any (fun sp => decide (sp.problem_id = problem_id)) = true := by
      rcases hex with ⟨sp, hsp, he⟩
      exact List.any_eq_true.mpr ⟨sp, hsp, by simpa using he⟩
    simp [LeetCodeTracker.mark_problem_solved, hp, ProblemService.mark_problem_solved, hany]
  · have hany : solved.any (fun sp => decide (sp.problem_id = problem_id)) = false := by
      simp only [List.any_eq_false, decide_eq_true_eq]
      exact hnone
    simp [LeetCodeTracker.mark_problem_solved, hp, ProblemService.mark_problem_solved, hany]
  · by_cases hex : ∃ sp ∈ solved, sp.problem_id = problem_id
    · have hany : solved.any (fun sp => decide (sp.problem_id = problem_id)) = true := by
        rcases hex with ⟨sp, hsp, he⟩
        exact List.any_eq_true.mpr ⟨sp, hsp, by simpa using he⟩
      simpa [LeetCodeTracker.mark_problem_solved, hp,
        ProblemService.mark_problem_solved, hany] using hnd
    · push_neg at hex
      have hany : solved.any (fun sp => decide (sp.problem_id = problem_id)) = false := by
        simp only [List.any_eq_false, decide_eq_true_eq]
        exact hex
      simp [LeetCodeTracker.mark_problem_solved, hp, ProblemService.mark_problem_solved,
        hany, SolvedProblem.from_problem, List.nodup_append]
      exact ⟨hnd, fun sp hsp => hpid ▸ hex sp hsp⟩

/-- C5 amended witness: a concrete run of each branch — missing id gives
"not found"; present id with an empty ledger appends the one record. -/
theorem mark_solved_resolution_witness :
    (LeetCodeTracker.mark_problem_solved (fun _ => none) [] "9" 0
      = (MarkOutcome.notFound, [])) ∧
    (LeetCodeTracker.mark_problem_solved
        (fun s => if s = "1" then some ⟨"1", "Two Sum", "two-sum", Difficulty.Easy, 50, false⟩
                  else none) [] "1" 77
      = (MarkOutcome.success, [⟨"1", "Two Sum", "two-sum", Difficulty.Easy, 77⟩])) := by
  constructor
  · exact (mark_solved_resolution (fun _ => none) [] "9" 0).1 rfl
  · exact ((mark_solved_resolution
      (fun s => if s = "1" then some ⟨"1", "Two Sum", "two-sum", Difficulty.Easy, 50, false⟩
                else none) [] "1" 77).2.1
      ⟨"1", "Two Sum", "two-sum", Difficulty.Easy, 50, false⟩ (by simp)).2 (by simp)

/-- C8: on a ledger holding no record for the id, mark-solved followed by
mark-unsolved restores the ledger exactly (in particular the set of
problem ids is unchanged); the intermediate ledger is the original plus
the one new record. -/
theorem mark_roundtrip (solved : List SolvedProblem) (p : Problem) (now : Int)
    (h : ∀ sp ∈ solved, sp.problem_id ≠ p.id) :
    ∃ l₁, ProblemService.mark_problem_solved solved p.id p now = some l₁ ∧
      ProblemService.mark_problem_unsolved l₁ p.id = some solved ∧
      l₁.map (fun sp => sp.problem_id) = solved.map (fun sp => sp.problem_id) ++ [p.id] := by
  have hany : solved.any (fun sp => decide (sp.problem_id = p.id)) = false := by
    simp only [List.any_eq_false, decide_eq_true_eq]
    exact h
  refine ⟨solved ++ [SolvedProblem.from_problem p now], ?_, ?_, ?_⟩
  · simp [ProblemService.mark_problem_solved, hany]
  · have hfilter :
        (solved ++ [SolvedProblem.from_problem p now]).filter
          (fun sp => decide (sp.problem_id ≠ p.id)) = solved := by
      rw [List.filter_append]
      have h1 : solved.filter (fun sp => decide (sp.problem_id ≠ p.id)) = solved :=
        List.filter_eq_self.mpr (fun sp hsp => by simpa using h sp hsp)
      have h2 : [SolvedProblem.from_problem p now].filter
          (fun sp => decide (sp.problem_id ≠ p.id)) = [] := by
        simp [SolvedProblem.from_problem]
      rw [h1, h2, List.append_nil]
    simp only [ProblemService.mark_problem_unsolved, hfilter]
    rw [if_neg (by simp)]
  · simp [SolvedProblem.from_problem]

/-- The retry loop only ever consults attempts `i` to `i + remaining - 1`:
two attempt oracles agreeing there give identical outcomes. -/
theorem fetchGo_congr (a b : Nat → Option (List Problem)) :
    ∀ (remaining i : Nat), (∀ j, j < i + remaining → a j = b j) →
      LeetCodeAPI.fetchGo a i remaining = LeetCodeAPI.fetchGo b i remaining := by
  intro remaining
  induction remaining with
  | zero => intro i _; rfl
  | succ r ih =>
    intro i h
    have h0 : a i = b i := h i (by omega)
    cases hb : b i with
    | some ps => simp [LeetCodeAPI.fetchGo, h0, hb]
    | none =>
      by_cases hr : r = 0
      · simp [LeetCodeAPI.fetchGo, h0, hb, hr]
      · have hrec := ih (i + 1) (fun j hj => h j (by omega))
        simp [LeetCodeAPI.fetchGo, h0, hb, hr, hrec]

/-- C9: the remote catalog fetch is retried up to 3 attempts (the loop
never consults the attempt oracle beyond the first `MAX_RETRIES` indices)
with doubling backoff delays 1 then 2; when every attempt fails the error
is propagated and the refresh path surfaces it as a user-visible failure
while leaving the persisted catalog cache exactly as it was; a successful
first attempt sleeps nothing and caches the fresh catalog. -/
theorem fetch_retry_spec (attempts : Nat → Option (List Problem)) (cached : List Problem) :
    ((∀ i, i < LeetCodeAPI.MAX_RETRIES → attempts i = none) →
      LeetCodeAPI.fetch_all_problems attempts = (Except.error "fetch failed", [1, 2]) ∧
      (ProblemService.get_all_problems_refresh attempts cached).errorSurfaced = true ∧
      (ProblemService.get_all_problems_refresh attempts cached).cacheAfter = cached ∧
      (ProblemService.get_all_problems_refresh attempts cached).problems = cached) ∧
    (∀ attempts2, (∀ i, i < LeetCodeAPI.MAX_RETRIES → attempts i = attempts2 i) →
      LeetCodeAPI.fetch_all_problems attempts = LeetCodeAPI.fetch_all_problems attempts2) ∧
    (∀ ps, attempts 0 = some ps →
      LeetCodeAPI.fetch_all_problems attempts = (Except.ok ps, []) ∧
      (ProblemService.get_all_problems_refresh attempts cached).cacheAfter = ps) := by
  refine ⟨fun ha => ?_, fun attempts2 hagree => ?_, fun ps hps => ?_⟩
  · have h0 := ha 0 (by decide)
    have h1 := ha 1 (by decide)
    have h2 := ha 2 (by decide)
    have hfetch : LeetCodeAPI.fetch_all_problems attempts
        = (Except.error "fetch failed", [1, 2]) := by
      simp [LeetCodeAPI.fetch_all_problems, LeetCodeAPI.MAX_RETRIES, LeetCodeAPI.fetchGo,
        h0, h1, h2]
    refine ⟨hfetch, ?_, ?_, ?_⟩ <;>
      simp [ProblemService.get_all_problems_refresh, hfetch]
  · exact fetchGo_congr attempts attempts2 LeetCodeAPI.MAX_RETRIES 0
      (fun j hj => hagree j (by omega))
  · have hfetch : LeetCodeAPI.fetch_all_problems attempts = (Except.ok ps, []) := by
      simp [LeetCodeAPI.fetch_all_problems, LeetCodeAPI.MAX_RETRIES, LeetCodeAPI.fetchGo, hps]
    exact ⟨hfetch, by simp [ProblemService.get_all_problems_refresh, hfetch]⟩

/-- C9 witness: all attempts failing yields the propagated error with the
doubling delays, and the stale cache survives untouched. -/
theorem fetch_retry_spec_witness :
    LeetCodeAPI.fetch_all_problems (fun _ => none)
      = (Except.error "fetch failed", [1, 2]) ∧
    (ProblemService.get_all_problems_refresh (fun _ => none) []).cacheAfter = [] := by
  have h := (fetch_retry_spec (fun _ => none) []).1 (fun _ _ => rfl)
  exact ⟨h.1, h.2.2.1⟩

/-- `chooseFrom` advances the draw index by one exactly when the candidate
list is nonempty. -/
theorem chooseFrom_snd (rng : Nat → Nat → Nat) (seed k : Nat) (l : List Problem) :
    (ProblemService.chooseFrom rng seed k l).2 = k + ProblemService.tierDraw l := by
  cases l <;> simp [ProblemService.chooseFrom, ProblemService.tierDraw]

/-- On a nonempty candidate list, `chooseFrom` returns the element at the
uniform index `rng seed k % length`. -/
theorem chooseFrom_fst (rng : Nat → Nat → Nat) (seed k : Nat) (l : List Problem)
    (h : l ≠ []) :
    (ProblemService.chooseFrom rng seed k l).1 = l.get? (rng seed k % l.length) := by
  cases l with
  | nil => exact absurd rfl h
  | cons p ps =>
    rw [List.get?_eq_get (Nat.mod_lt _ (by simp : 0 < (p :: ps).length))]
    rfl

/-- C3 counterexample: two sequential daily fetches for the same date on a
catalog whose only problem is free and unsolved invoke the pseudo-random
draw twice (the per-date cache entry written by the first call is never
read back), refuting "invoked at most once per difficulty tier per date
across repeated calls". -/
theorem daily_selection_redraw_counterexample :
    ((LeetCodeTracker.fetch_daily_problems (fun _ _ => 0) 20240115
        ((LeetCodeTracker.fetch_daily_problems (fun _ _ => 0) 20240115
          { net := fun _ => none, catalogCache := [sampleProblem], catalogFresh := true,
            dailyCache := [], solved := [], drawCount := 0, fetchCount := 0 }).2)).2).drawCount
      = 2 ∧
    ¬ (2 ≤ 1) := by
  exact ⟨rfl, by decide⟩

/-- C3 amended: every daily fetch writes its selection under the per-date
cache key, and the read path `get_daily_problems` serves that entry back
verbatim (a pure lookup: no draw, no fetch); but the fetch path never
reads the key, so each call re-runs the seeded draw once per nonempty
tier. When the first call's catalog load succeeds (valid cache, or a
successful network fetch, which is then cached), a second call for the
same date returns an identical selection, invokes no further network
fetch, and the draw count grows by the per-call draw total twice. When
the fetch fails, the source falls back to the stale cache without writing
it, so the catalog cache stays invalid and the second call invokes the
network fetch again. -/
theorem daily_selection_cache_behavior (rng : Nat → Nat → Nat) (seed : Nat)
    (s : DailyState) :
    ((LeetCodeTracker.fetch_daily_problems rng seed s).2).dailyCache.lookup seed
      = some (LeetCodeTracker.fetch_daily_problems rng seed s).1 ∧
    ProblemService.get_daily_problems
        (LeetCodeTracker.fetch_daily_problems rng seed s).2 seed
      = (LeetCodeTracker.fetch_daily_problems rng seed s).1 ∧
    ((LeetCodeTracker.fetch_daily_problems rng seed
        (LeetCodeTracker.fetch_daily_problems rng seed s).2).2).solved = s.solved ∧
    (s.catalogFresh = true ∨ (∃ c, s.net s.fetchCount = some c) →
      (LeetCodeTracker.fetch_daily_problems rng seed
          (LeetCodeTracker.fetch_daily_problems rng seed s).2).1
        = (LeetCodeTracker.fetch_daily_problems rng seed s).1 ∧
      ((LeetCodeTracker.fetch_daily_problems rng seed
          (LeetCodeTracker.fetch_daily_problems rng seed s).2).2).drawCount
        = s.drawCount + 2 * (ProblemService.select_daily_problems rng
            (ProblemService.get_all_problems s).1 s.solved seed).2 ∧
      ((LeetCodeTracker.fetch_daily_problems rng seed
          (LeetCodeTracker.fetch_daily_problems rng seed s).2).2).fetchCount
        ≤ s.fetchCount + 1) ∧
    (s.catalogFresh = false → s.net s.fetchCount = none →
      ((LeetCodeTracker.fetch_daily_problems rng seed s).2).catalogFresh = false ∧
      ((LeetCodeTracker.fetch_daily_problems rng seed s).2).fetchCount
        = s.fetchCount + 1 ∧
      ((LeetCodeTracker.fetch_daily_problems rng seed
          (LeetCodeTracker.fetch_daily_problems rng seed s).2).2).fetchCount
        = s.fetchCount + 2) := by
  by_cases hf : s.catalogFresh
  · refine ⟨?_, ?_, ?_, fun _ => ⟨?_, ?_, ?_⟩, fun hff _ => by rw [hf] at hff; cases hff⟩ <;>
      simp [LeetCodeTracker.fetch_daily_problems, ProblemService.generate_daily_problems,
        ProblemService.get_all_problems, ProblemService.get_daily_problems,
        List.lookup, hf] <;>
      omega
  · cases hnet : s.net s.fetchCount with
    | some c =>
      refine ⟨?_, ?_, ?_, fun _ => ⟨?_, ?_, ?_⟩,
          fun _ hn => Option.noConfusion hn⟩ <;>
        simp [LeetCodeTracker.fetch_daily_problems, ProblemService.generate_daily_problems,
          ProblemService.get_all_problems, ProblemService.get_daily_problems,
          List.lookup, hf, hnet] <;>
        omega
    | none =>
      refine ⟨?_, ?_, ?_, fun hd => ?_, fun _ _ => ⟨?_, ?_, ?_⟩⟩
      · simp [LeetCodeTracker.fetch_daily_problems, ProblemService.generate_daily_problems,
          ProblemService.get_all_problems, ProblemService.get_daily_problems,
          List.lookup, hf, hnet]
      · simp [LeetCodeTracker.fetch_daily_problems, ProblemService.generate_daily_problems,
          ProblemService.get_all_problems, ProblemService.get_daily_problems,
          List.lookup, hf, hnet]
      · cases hnet2 : s.net (s.fetchCount + 1) <;>
          simp [LeetCodeTracker.fetch_daily_problems, ProblemService.generate_daily_problems,
            ProblemService.get_all_problems, hf, hnet, hnet2]
      · rcases hd with hl | ⟨c, hc⟩
        · exact absurd hl hf
        · exact Option.noConfusion hc
      · simp [LeetCodeTracker.fetch_daily_problems, ProblemService.generate_daily_problems,
          ProblemService.get_all_problems, hf, hnet]
      · simp [LeetCodeTracker.fetch_daily_problems, ProblemService.generate_daily_problems,
          ProblemService.get_all_problems, hf, hnet]
      · cases hnet2 : s.net (s.fetchCount + 1) <;>
          simp [LeetCodeTracker.fetch_daily_problems, ProblemService.generate_daily_problems,
            ProblemService.get_all_problems, hf, hnet, hnet2]

/-- C3 amended witness: with a valid catalog cache the two calls return
identical selections, and with an invalid cache and a failing network the
second call re-invokes the fetch, reaching two fetch invocations. -/
theorem daily_selection_cache_behavior_witness :
    (LeetCodeTracker.fetch_daily_problems (fun _ _ => 0) 20240115
        ((LeetCodeTracker.fetch_daily_problems (fun _ _ => 0) 20240115
          { net := fun _ => none, catalogCache := [sampleProblem], catalogFresh := true,
            dailyCache := [], solved := [], drawCount := 0, fetchCount := 0 }).2)).1
      = (LeetCodeTracker.fetch_daily_problems (fun _ _ => 0) 20240115
          { net := fun _ => none, catalogCache := [sampleProblem], catalogFresh := true,
            dailyCache := [], solved := [], drawCount := 0, fetchCount := 0 }).1 ∧
    ((LeetCodeTracker.fetch_daily_problems (fun _ _ => 0) 20240115
        ((LeetCodeTracker.fetch_daily_problems (fun _ _ => 0) 20240115
          { net := fun _ => none, catalogCache := [sampleProblem], catalogFresh := false,
            dailyCache := [], solved := [], drawCount := 0, fetchCount := 0 }).2)).2).fetchCount
      = 2 := by
  constructor
  · exact ((daily_selection_cache_behavior (fun _ _ => 0) 20240115
      { net := fun _ => none, catalogCache := [sampleProblem], catalogFresh := true,
        dailyCache := [], solved := [], drawCount := 0, fetchCount := 0 }).2.2.2.1
      (Or.inl rfl)).1
  · exact ((daily_selection_cache_behavior (fun _ _ => 0) 20240115
      { net := fun _ => none, catalogCache := [sampleProblem], catalogFresh := false,
        dailyCache := [], solved := [], drawCount := 0, fetchCount := 0 }).2.2.2.2
      rfl rfl).2.2

/-- The descending threshold scan of `_generate_heatmap` always finds a
symbol (threshold 0 matches every count) and implements the monotone
level map `min count 4`. -/
theorem pickSymbol_correct (c : Nat) :
    StatsService.pickSymbol c StatsService.heatLevelsDesc
      = some (StatsService.levelSymbol (StatsService.heatLevel c)) := by
  match c with
  | 0 => rfl
  | 1 => rfl
  | 2 => rfl
  | 3 => rfl
  | c + 4 =>
    have h4 : StatsService.heatLevel (c + 4) = 4 := by
      simp only [StatsService.heatLevel]
      omega
    rw [h4]
    simp [StatsService.pickSymbol, StatsService.heatLevelsDesc, StatsService.levelSymbol,
      Nat.le_add_left]

/-- A `filterMap` whose function always succeeds is a `map`. -/
theorem filterMap_eq_map_of_some {α β : Type} (f : α → Option β) (g : α → β) (l : List α)
    (h : ∀ a ∈ l, f a = some (g a)) : l.filterMap f = l.map g := by
  induction l with
  | nil => rfl
  | cons a t ih =>
    rw [List.filterMap_cons, h a (by simp), List.map_cons,
      ih (fun x hx => h x (by simp [hx]))]

/-- Every level symbol is one of the five defined symbols. -/
theorem levelSymbol_mem (k : Nat) :
    StatsService.levelSymbol k ∈ ['⚫', '🟢', '🟡', '🟠', '🔴'] := by
  match k with
  | 0 => simp [StatsService.levelSymbol]
  | 1 => simp [StatsService.levelSymbol]
  | 2 => simp [StatsService.levelSymbol]
  | 3 => simp [StatsService.levelSymbol]
  | k + 4 => simp [StatsService.levelSymbol]

/-- C4: for every ledger and every value of today the heatmap is exactly
the 30-day trailing window, oldest day first, with each day's solve count
mapped through the monotone 5-level bucketing `min count 4` to its level
symbol; a day with no solves gets the level-0 symbol, every emitted symbol
is one of the 5 defined ones, and distinct levels have distinct symbols. -/
theorem heatmap_spec (ps : List SolvedProblem) (today : Int) :
    (StatsService._generate_heatmap ps today 30).length = 30 ∧
    StatsService._generate_heatmap ps today 30
      = (StatsService.dateRange today 30).map
          (fun day => StatsService.levelSymbol (StatsService.heatLevel
            (StatsService.solveCountOn ps (StatsService.dateRange today 30) day))) ∧
    (∀ j : Nat, j < 30 →
      (StatsService.dateRange today 30).get? j = some (today - 29 + j)) ∧
    (∀ a b : Nat, a ≤ b → StatsService.heatLevel a ≤ StatsService.heatLevel b) ∧
    (∀ i : Nat, i < 5 → ∀ j : Nat, j < 5 →
      StatsService.levelSymbol i = StatsService.levelSymbol j → i = j) ∧
    (∀ c ∈ StatsService._generate_heatmap ps today 30,
      c ∈ ['⚫', '🟢', '🟡', '🟠', '🔴']) ∧
    StatsService.levelSymbol (StatsService.heatLevel 0) = '⚫' := by
  have hmap : StatsService._generate_heatmap ps today 30
      = (StatsService.dateRange today 30).map
          (fun day => StatsService.levelSymbol (StatsService.heatLevel
            (StatsService.solveCountOn ps (StatsService.dateRange today 30) day))) := by
    by_cases hps : ps.isEmpty
    · have hnil : ps = [] := List.isEmpty_iff.mp hps
      subst hnil
      have hcount : ∀ day : Int,
          StatsService.solveCountOn [] (StatsService.dateRange today 30) day = 0 := by
        intro day
        rfl
      simp only [StatsService._generate_heatmap, List.isEmpty_nil, if_true, hcount]
      have hconst : (StatsService.dateRange today 30).map
            (fun _ => StatsService.levelSymbol (StatsService.heatLevel 0))
          = List.replicate (StatsService.dateRange today 30).length
              (StatsService.levelSymbol (StatsService.heatLevel 0)) :=
        List.map_const' _ _
      rw [hconst]
      simp [StatsService.dateRange]
      rfl
    · simp only [StatsService._generate_heatmap, hps, Bool.false_eq_true, if_false]
      exact filterMap_eq_map_of_some _ _ _ (fun day _ => pickSymbol_correct _)
  refine ⟨?_, hmap, fun j hj => ?_, fun a b hab => ?_, by decide, ?_, rfl⟩
  · rw [hmap]
    simp [StatsService.dateRange]
  · simp only [StatsService.dateRange, List.get?_map, List.get?_range hj, Option.map_some']
    have : today - ((30 - 1 - j : Nat) : Int) = today - 29 + j := by omega
    rw [this]
  · simp only [StatsService.heatLevel]
    omega
  · intro c hc
    rw [hmap] at hc
    rcases List.mem_map.mp hc with ⟨day, _, rfl⟩
    exact levelSymbol_mem _

/-- C4 witness: the level map is monotone at a concrete pair and the
concrete window starts 29 days back. -/
theorem heatmap_spec_witness :
    StatsService.heatLevel 1 ≤ StatsService.heatLevel 2 ∧
    (StatsService.dateRange 0 30).get? 0 = some (-29) := by
  have h := heatmap_spec [] 0
  refine ⟨h.2.2.2.1 1 2 (by decide), ?_⟩
  have h0 := h.2.2.1 0 (by decide)
  norm_num at h0
  exact h0

/-- C7: daily selection seeds the generator with the integer YYYYMMDD
encoding of the date and consumes exactly one uniform draw per nonempty
difficulty tier, in the fixed order Easy, Medium, Hard, each over that
tier's free unsolved candidates; a tier with no eligible candidate yields
`none` and consumes no draw. Selection is a pure function of the rng, the
catalog, the ledger and the date, so repeated runs for the same date with
the same catalog yield the same selection. -/
theorem daily_selection_spec (rng : Nat → Nat → Nat) (catalog : List Problem)
    (solved : List SolvedProblem) (y mo dy : Nat) :
    ProblemService.dateSeed y mo dy = y * 10000 + mo * 100 + dy ∧
    (∀ t : Difficulty, ProblemService.dailyPool catalog solved t = [] →
      (ProblemService.select_daily_problems rng catalog solved
        (ProblemService.dateSeed y mo dy)).1 t = none) ∧
    (ProblemService.dailyPool catalog solved Difficulty.Easy ≠ [] →
      (ProblemService.select_daily_problems rng catalog solved
          (ProblemService.dateSeed y mo dy)).1 Difficulty.Easy
        = (ProblemService.dailyPool catalog solved Difficulty.Easy).get?
            (rng (ProblemService.dateSeed y mo dy) 0
              % (ProblemService.dailyPool catalog solved Difficulty.Easy).length)) ∧
    (ProblemService.dailyPool catalog solved Difficulty.Medium ≠ [] →
      (ProblemService.select_daily_problems rng catalog solved
          (ProblemService.dateSeed y mo dy)).1 Difficulty.Medium
        = (ProblemService.dailyPool catalog solved Difficulty.Medium).get?
            (rng (ProblemService.dateSeed y mo dy)
                (ProblemService.tierDraw (ProblemService.dailyPool catalog solved
                  Difficulty.Easy))
              % (ProblemService.dailyPool catalog solved Difficulty.Medium).length)) ∧
    (ProblemService.dailyPool catalog solved Difficulty.Hard ≠ [] →
      (ProblemService.select_daily_problems rng catalog solved
          (ProblemService.dateSeed y mo dy)).1 Difficulty.Hard
        = (ProblemService.dailyPool catalog solved Difficulty.Hard).get?
            (rng (ProblemService.dateSeed y mo dy)
                (ProblemService.tierDraw (ProblemService.dailyPool catalog solved
                    Difficulty.Easy)
                  + ProblemService.tierDraw (ProblemService.dailyPool catalog solved
                    Difficulty.Medium))
              % (ProblemService.dailyPool catalog solved Difficulty.Hard).length)) ∧
    (ProblemService.select_daily_problems rng catalog solved
        (ProblemService.dateSeed y mo dy)).2
      = ProblemService.tierDraw (ProblemService.dailyPool catalog solved Difficulty.Easy)
        + ProblemService.tierDraw (ProblemService.dailyPool catalog solved Difficulty.Medium)
        + ProblemService.tierDraw (ProblemService.dailyPool catalog solved Difficulty.Hard) := by
  refine ⟨rfl, fun t ht => ?_, fun hE => ?_, fun hM => ?_, fun hH => ?_, ?_⟩
  · simp only [ProblemService.select_daily_problems, ProblemService.dailyPool] at ht ⊢
    cases t <;> simp [ht, ProblemService.chooseFrom]
  · simp only [ProblemService.select_daily_problems, ProblemService.dailyPool] at hE ⊢
    exact chooseFrom_fst rng _ 0 _ hE
  · simp only [ProblemService.select_daily_problems, ProblemService.dailyPool] at hM ⊢
    rw [chooseFrom_snd, Nat.zero_add]
    exact chooseFrom_fst rng _ _ _ hM
  · simp only [ProblemService.select_daily_problems, ProblemService.dailyPool] at hH ⊢
    rw [chooseFrom_snd, chooseFrom_snd, Nat.zero_add]
    exact chooseFrom_fst rng _ _ _ hH
  · simp only [ProblemService.select_daily_problems, ProblemService.dailyPool]
    simp only [chooseFrom_snd]
    omega

/-- C7 witness: on a catalog whose only problem is the free, unsolved Easy
problem with id "1", daily selection returns that problem for Easy and
nothing for Medium and Hard, consuming exactly one draw. -/
theorem daily_selection_spec_witness :
    (ProblemService.select_daily_problems (fun _ _ => 0) [sampleProblem] []
        (ProblemService.dateSeed 2024 1 15)).1 Difficulty.Easy = some sampleProblem ∧
    (ProblemService.select_daily_problems (fun _ _ => 0) [sampleProblem] []
        (ProblemService.dateSeed 2024 1 15)).1 Difficulty.Medium = none ∧
    (ProblemService.select_daily_problems (fun _ _ => 0) [sampleProblem] []
        (ProblemService.dateSeed 2024 1 15)).1 Difficulty.Hard = none ∧
    (ProblemService.select_daily_problems (fun _ _ => 0) [sampleProblem] []
        (ProblemService.dateSeed 2024 1 15)).2 = 1 := by
  have h := daily_selection_spec (fun _ _ => 0) [sampleProblem] [] 2024 1 15
  refine ⟨?_, h.2.1 Difficulty.Medium (by decide), h.2.1 Difficulty.Hard (by decide), ?_⟩
  · rw [h.2.2.1 (by decide)]
    decide
  · rw [h.2.2.2.2.2]
    decide

/-- C8 witness: the round trip on the empty ledger. -/
theorem mark_roundtrip_witness :
    ∃ l₁, ProblemService.mark_problem_solved []
            ((⟨"1", "Two Sum", "two-sum", Difficulty.Easy, 50, false⟩ : Problem)).id
            ⟨"1", "Two Sum", "two-sum", Difficulty.Easy, 50, false⟩ 5 = some l₁ ∧
      ProblemService.mark_problem_unsolved l₁
        ((⟨"1", "Two Sum", "two-sum", Difficulty.Easy, 50, false⟩ : Problem)).id
        = some [] ∧
      l₁.map (fun sp => sp.problem_id)
        = ([] : List SolvedProblem).map (fun sp => sp.problem_id)
            ++ [((⟨"1", "Two Sum", "two-sum", Difficulty.Easy, 50, false⟩ : Problem)).id] :=
  mark_roundtrip [] ⟨"1", "Two Sum", "two-sum", Difficulty.Easy, 50, false⟩ 5
    (by simp)

/-- Filtering with a weaker predicate keeps at least as many elements. -/
theorem filter_length_mono {α : Type} (p q : α → Bool) (l : List α)
    (h : ∀ x, p x = true → q x = true) :
    (l.filter p).length ≤ (l.filter q).length := by
  induction l with
  | nil => simp
  | cons a t ih =>
    cases hpa : p a with
    | false =>
      cases hqa : q a with
      | false => simpa [List.filter_cons, hpa, hqa] using ih
      | true =>
        simp only [List.filter_cons, hpa, hqa, if_true, if_false, List.length_cons]
        exact Nat.le_succ_of_le ih
    | true =>
      have hqa := h a hpa
      simp only [List.filter_cons, hpa, hqa, if_true, List.length_cons]
      exact Nat.succ_le_succ ih

/-- On a duplicate-free list containing `c`, strictly fewer elements are
`≤ c - 1` than are `≤ c`. -/
theorem filter_le_strict (l : List Int) (hnd : l.Nodup) (c : Int) (hc : c ∈ l) :
    (l.filter (fun x => decide (x ≤ c - 1))).length
      < (l.filter (fun x => decide (x ≤ c))).length := by
  induction l with
  | nil => cases hc
  | cons a t ih =>
    rcases List.nodup_cons.mp hnd with ⟨hat, hndt⟩
    rcases List.mem_cons.mp hc with rfl | hct
    · have hmono := filter_length_mono (fun x => decide (x ≤ c - 1))
        (fun x => decide (x ≤ c)) t
        (by intro x hx; simp only [decide_eq_true_eq] at hx ⊢; omega)
      have h1 : List.filter (fun x => decide (x ≤ c - 1)) (c :: t)
          = List.filter (fun x => decide (x ≤ c - 1)) t := by
        rw [List.filter_cons, if_neg (by simp only [decide_eq_true_eq]; omega)]
      have h2 : List.filter (fun x => decide (x ≤ c)) (c :: t)
          = c :: List.filter (fun x => decide (x ≤ c)) t := by
        rw [List.filter_cons, if_pos (by simp)]
      rw [h1, h2, List.length_cons]
      omega
    · have hlt := ih hndt hct
      by_cases hac : a ≤ c - 1
      · have h1 : List.filter (fun x => decide (x ≤ c - 1)) (a :: t)
            = a :: List.filter (fun x => decide (x ≤ c - 1)) t := by
          rw [List.filter_cons, if_pos (by simp only [decide_eq_true_eq]; omega)]
        have h2 : List.filter (fun x => decide (x ≤ c)) (a :: t)
            = a :: List.filter (fun x => decide (x ≤ c)) t := by
          rw [List.filter_cons, if_pos (by simp only [decide_eq_true_eq]; omega)]
        rw [h1, h2, List.length_cons, List.length_cons]
        omega
      · by_cases hac2 : a ≤ c
        · have : a = c := by omega
          exact absurd hct (this ▸ hat)
        · have h1 : List.filter (fun x => decide (x ≤ c - 1)) (a :: t)
              = List.filter (fun x => decide (x ≤ c - 1)) t := by
            rw [List.filter_cons, if_neg (by simp only [decide_eq_true_eq]; omega)]
          have h2 : List.filter (fun x => decide (x ≤ c)) (a :: t)
              = List.filter (fun x => decide (x ≤ c)) t := by
            rw [List.filter_cons, if_neg (by simp only [decide_eq_true_eq]; omega)]
          rw [h1, h2]
          exact hlt

/-- Characterisation of the backwards walk `while check_date in set(dates)`
(`curGo`): with enough fuel (every element `≤ check` still uncounted) the
result `r` satisfies: each of `check, check-1, …, check-r+1` is a solved
date and `check-r` is not. -/
theorem curGo_spec (dates : List Int) (hnd : dates.Nodup) :
    ∀ (fuel : Nat) (check : Int),
      (dates.filter (fun x => decide (x ≤ check))).length ≤ fuel →
      (∀ k : Nat, k < StatsService.curGo dates fuel check →
        check - (k : Int) ∈ dates) ∧
      (check - ((StatsService.curGo dates fuel check : Nat) : Int)) ∉ dates := by
  intro fuel
  induction fuel with
  | zero =>
    intro check hle
    refine ⟨fun k hk => absurd hk (by simp [StatsService.curGo]), ?_⟩
    intro hmem
    have hin : check ∈ dates.filter (fun x => decide (x ≤ check)) :=
      List.mem_filter.mpr ⟨by simpa [StatsService.curGo] using hmem, by simp⟩
    have := List.length_pos.mpr (List.ne_nil_of_mem hin)
    omega
  | succ f ih =>
    intro check hle
    by_cases hcm : check ∈ dates
    · have hdec : (dates.filter (fun x => decide (x ≤ check - 1))).length ≤ f := by
        have := filter_le_strict dates hnd check hcm
        omega
      obtain ⟨ha, hb⟩ := ih (check - 1) hdec
      have hcur : StatsService.curGo dates (f + 1) check
          = StatsService.curGo dates f (check - 1) + 1 := by
        simp [StatsService.curGo, hcm]
      rw [hcur]
      constructor
      · intro k hk
        match k with
        | 0 => simpa using hcm
        | k + 1 =>
          have heq : check - ((k + 1 : Nat) : Int) = (check - 1) - (k : Int) := by
            push_cast
            ring
          rw [heq]
          exact ha k (by omega)
      · have heq : check - ((StatsService.curGo dates f (check - 1) + 1 : Nat) : Int)
            = (check - 1) - ((StatsService.curGo dates f (check - 1) : Nat) : Int) := by
          push_cast
          ring
        rw [heq]
        exact hb
    · have hcur : StatsService.curGo dates (f + 1) check = 0 := by
        simp [StatsService.curGo, hcm]
      rw [hcur]
      exact ⟨fun k hk => absurd hk (by omega), by simpa using hcm⟩

/-- The running `longest` value never decreases through the scan. -/
theorem streakGo_ge (rest : List Int) :
    ∀ (prev : Int) (longest temp : Nat),
      longest ≤ StatsService.streakGo prev longest temp rest := by
  induction rest with
  | nil => intro prev longest temp; simp [StatsService.streakGo]
  | cons d rest' ih =>
    intro prev longest temp
    by_cases hgap : d - prev = 1
    · have hstep : StatsService.streakGo prev longest temp (d :: rest')
          = StatsService.streakGo d (max longest (temp + 1)) (temp + 1) rest' := by
        simp [StatsService.streakGo, hgap]
      rw [hstep]
      exact le_trans (le_max_left _ _) (ih d (max longest (temp + 1)) (temp + 1))
    · have hstep : StatsService.streakGo prev longest temp (d :: rest')
          = StatsService.streakGo d longest 1 rest' := by
        simp [StatsService.streakGo, hgap]
      rw [hstep]
      exact ih d longest 1

/-- Invariant-carrying correctness of the longest-streak scan: if `temp` is
the exact length of the run of consecutive dates ending at `prev`,
`longest` is achieved by some run and bounds every run lying at or before
`prev`, and `prev :: rest` is the strictly sorted tail of the date list
`L`, then the scan result is achieved by a run in `L` and bounds every run
in `L`. -/
theorem streakGo_spec (L : List Int) :
    ∀ (rest : List Int) (prev : Int) (longest temp : Nat),
      List.Sorted (· < ·) (prev :: rest) →
      (∀ x ∈ prev :: rest, x ∈ L) →
      (∀ x ∈ L, x ≤ prev ∨ x ∈ rest) →
      (∀ k : Nat, k < temp → prev - (k : Int) ∈ L) →
      (prev - (temp : Int) ∉ L) →
      1 ≤ temp →
      temp ≤ longest →
      (∃ a : Int, ∀ k : Nat, k < longest → a + (k : Int) ∈ L) →
      (∀ (a : Int) (n : Nat), (∀ k : Nat, k < n → a + (k : Int) ∈ L) →
        a + (n : Int) ≤ prev + 1 → n ≤ longest) →
      (∃ a : Int, ∀ k : Nat, k < StatsService.streakGo prev longest temp rest →
        a + (k : Int) ∈ L) ∧
      (∀ (a : Int) (n : Nat), (∀ k : Nat, k < n → a + (k : Int) ∈ L) →
        n ≤ StatsService.streakGo prev longest temp rest) := by
  intro rest
  induction rest with
  | nil =>
    intro prev longest temp hsort hsub hmem hrun hmax htemp hlt hach hub
    constructor
    · simpa [StatsService.streakGo] using hach
    · intro a n hr
      simp only [StatsService.streakGo]
      rcases Nat.eq_zero_or_pos n with rfl | hn
      · exact Nat.zero_le _
      · have hlast := hr (n - 1) (by omega)
        have hle : a + ((n - 1 : Nat) : Int) ≤ prev := by
          rcases hmem _ hlast with h | h
          · exact h
          · exact absurd h (List.not_mem_nil _)
        exact hub a n hr (by omega)
  | cons d rest' ih =>
    intro prev longest temp hsort hsub hmem hrun hmax htemp hlt hach hub
    have hsort' : List.Sorted (· < ·) (d :: rest') := hsort.of_cons
    have hpd : prev < d := (List.sorted_cons.mp hsort).1 d (by simp)
    have hdlt : ∀ x ∈ rest', d < x := fun x hx => (List.sorted_cons.mp hsort').1 x hx
    have hdL : d ∈ L := hsub d (by simp)
    have hsub' : ∀ x ∈ d :: rest', x ∈ L := fun x hx => hsub x (List.mem_cons_of_mem _ hx)
    have hmem' : ∀ x ∈ L, x ≤ d ∨ x ∈ rest' := by
      intro x hx
      rcases hmem x hx with h | h
      · exact Or.inl (le_trans h (le_of_lt hpd))
      · rcases List.mem_cons.mp h with rfl | h'
        · exact Or.inl le_rfl
        · exact Or.inr h'
    by_cases hgap : d - prev = 1
    · have hstep : StatsService.streakGo prev longest temp (d :: rest')
          = StatsService.streakGo d (max longest (temp + 1)) (temp + 1) rest' := by
        simp [StatsService.streakGo, hgap]
      rw [hstep]
      have hend_prev : ∀ (a : Int) (n : Nat), (∀ k : Nat, k < n → a + (k : Int) ∈ L) →
          a + (n : Int) = prev + 1 → n ≤ temp := by
        intro a n hr he
        by_contra hgt
        push_neg at hgt
        have heq : a + ((n - 1 - temp : Nat) : Int) = prev - (temp : Int) := by omega
        have hmem2 := hr (n - 1 - temp) (by omega)
        rw [heq] at hmem2
        exact hmax hmem2
      apply ih d (max longest (temp + 1)) (temp + 1) hsort' hsub' hmem'
      · intro k hk
        match k with
        | 0 => simpa using hdL
        | k + 1 =>
          have heq : d - ((k + 1 : Nat) : Int) = prev - (k : Int) := by
            push_cast
            omega
          rw [heq]
          exact hrun k (by omega)
      · have heq : d - ((temp + 1 : Nat) : Int) = prev - (temp : Int) := by
          push_cast
          omega
        rw [heq]
        exact hmax
      · omega
      · exact le_max_right _ _
      · rcases Nat.le_total (temp + 1) longest with hc | hc
        · rw [max_eq_left hc]
          exact hach
        · rw [max_eq_right hc]
          refine ⟨d - (temp : Int), fun k hk => ?_⟩
          by_cases hkt : k = temp
          · subst hkt
            simpa using hdL
          · have hk' : k < temp := by omega
            have heq : d - (temp : Int) + (k : Int) = prev - ((temp - 1 - k : Nat) : Int) := by
              omega
            rw [heq]
            exact hrun (temp - 1 - k) (by omega)
      · intro a n hr he
        by_cases hcase : a + (n : Int) ≤ prev + 1
        · exact le_trans (hub a n hr hcase) (le_max_left _ _)
        · have heq : a + (n : Int) = d + 1 := by omega
          rcases Nat.eq_zero_or_pos n with rfl | hn
          · exact Nat.zero_le _
          · rcases Nat.lt_or_ge n 2 with h2 | h2
            · have hn1 : n = 1 := by omega
              rw [hn1]
              exact le_trans (by omega) (le_max_right longest (temp + 1))
            · have hr' : ∀ k : Nat, k < n - 1 → a + (k : Int) ∈ L :=
                fun k hk => hr k (by omega)
              have hend : a + ((n - 1 : Nat) : Int) = prev + 1 := by omega
              have hle := hend_prev a (n - 1) hr' hend
              exact le_trans (by omega) (le_max_right longest (temp + 1))
    · have hd2 : prev + 2 ≤ d := by omega
      have hstep : StatsService.streakGo prev longest temp (d :: rest')
          = StatsService.streakGo d longest 1 rest' := by
        simp [StatsService.streakGo, hgap]
      rw [hstep]
      have hd1 : d - 1 ∉ L := by
        intro hmem1
        rcases hmem (d - 1) hmem1 with h | h
        · omega
        · rcases List.mem_cons.mp h with heq | h'
          · omega
          · have := hdlt _ h'
            omega
      apply ih d longest 1 hsort' hsub' hmem'
      · intro k hk
        match k with
        | 0 => simpa using hdL
      · simpa using hd1
      · exact le_rfl
      · exact le_trans htemp hlt
      · exact hach
      · intro a n hr he
        rcases Nat.eq_zero_or_pos n with rfl | hn
        · exact Nat.zero_le _
        · have hlast := hr (n - 1) (by omega)
          rcases hmem _ hlast with hle2 | hin
          · exact hub a n hr (by omega)
          · rcases List.mem_cons.mp hin with heq2 | h'
            · rcases Nat.lt_or_ge n 2 with h2 | h2
              · have hn1 : n = 1 := by omega
                rw [hn1]
                exact le_trans htemp hlt
              · exfalso
                have h1 : a + ((n - 2 : Nat) : Int) = d - 1 := by omega
                have hm2 := hr (n - 2) (by omega)
                rw [h1] at hm2
                exact hd1 hm2
            · have := hdlt _ h'
              omega

/-- The solved-date list is duplicate-free. -/
theorem solvedDates_nodup (ps : List SolvedProblem) :
    (StatsService.solvedDates ps).Nodup :=
  ((List.perm_insertionSort (· ≤ ·) _).nodup_iff).mpr (List.nodup_dedup _)

/-- The solved-date list is strictly sorted. -/
theorem solvedDates_sorted (ps : List SolvedProblem) :
    List.Sorted (· < ·) (StatsService.solvedDates ps) :=
  (List.sorted_insertionSort (· ≤ ·) _).lt_of_le (solvedDates_nodup ps)

/-- Membership in the solved-date list is exactly "some solve happened on
that calendar date". -/
theorem solvedDates_mem (ps : List SolvedProblem) (x : Int) :
    x ∈ StatsService.solvedDates ps ↔ ∃ p ∈ ps, dateOf p.completed_at = x := by
  simp [StatsService.solvedDates, List.mem_dedup]

/-- A nonempty ledger has a nonempty solved-date list. -/
theorem solvedDates_ne_nil (ps : List SolvedProblem) (h : ps ≠ []) :
    StatsService.solvedDates ps ≠ [] := by
  cases ps with
  | nil => exact absurd rfl h
  | cons p t =>
    intro hnil
    have hm : dateOf p.completed_at ∈ StatsService.solvedDates (p :: t) :=
      (solvedDates_mem _ _).mpr ⟨p, by simp, rfl⟩
    rw [hnil] at hm
    exact absurd hm (List.not_mem_nil _)

/-- The scan started the way `_calculate_streaks` starts it (on the tail
of the sorted date list, with `longest = temp = 1`) is achieved by a run
of consecutive dates and bounds every run of consecutive dates. -/
theorem calcLongest_bounds (d0 : Int) (rest : List Int)
    (hsort : List.Sorted (· < ·) (d0 :: rest)) :
    (∃ a : Int, ∀ k : Nat, k < StatsService.streakGo d0 1 1 rest →
      a + (k : Int) ∈ d0 :: rest) ∧
    (∀ (a : Int) (n : Nat), (∀ k : Nat, k < n → a + (k : Int) ∈ d0 :: rest) →
      n ≤ StatsService.streakGo d0 1 1 rest) := by
  have hd0min : ∀ x ∈ d0 :: rest, d0 ≤ x := by
    intro x hx
    rcases List.mem_cons.mp hx with rfl | h
    · exact le_rfl
    · exact le_of_lt ((List.sorted_cons.mp hsort).1 x h)
  have hmax0 : d0 - ((1 : Nat) : Int) ∉ d0 :: rest := by
    intro hmem1
    have := hd0min _ hmem1
    omega
  have hub0 : ∀ (a : Int) (n : Nat), (∀ k : Nat, k < n → a + (k : Int) ∈ d0 :: rest) →
      a + (n : Int) ≤ d0 + 1 → n ≤ 1 := by
    intro a n hr he
    by_contra hgt
    push_neg at hgt
    have h1 := hd0min _ (hr (n - 1) (by omega))
    have h0 := hd0min _ (hr (n - 2) (by omega))
    omega
  exact streakGo_spec (d0 :: rest) rest d0 1 1 hsort (fun x hx => hx)
    (fun x hx => by
      rcases List.mem_cons.mp hx with rfl | h
      · exact Or.inl le_rfl
      · exact Or.inr h)
    (fun k hk => by
      match k with
      | 0 => simpa using List.mem_cons_self d0 rest)
    hmax0 le_rfl le_rfl
    ⟨d0, fun k hk => by
      match k with
      | 0 => simpa using List.mem_cons_self d0 rest⟩
    hub0

/-- Full characterisation of `_calculate_streaks`: the current streak is
the exact length of the backward walk from today through the solved-date
set, and the longest streak is the exact maximum length of a run of
consecutive dates inside that set; the empty ledger gives `(0, 0)`. -/
theorem streaks_char (ps : List SolvedProblem) (today : Int) :
    (∀ k : Nat, k < (StatsService._calculate_streaks ps today).1 →
      today - (k : Int) ∈ StatsService.solvedDates ps) ∧
    (today - (((StatsService._calculate_streaks ps today).1 : Nat) : Int)
      ∉ StatsService.solvedDates ps) ∧
    (∃ a : Int, ∀ k : Nat, k < (StatsService._calculate_streaks ps today).2 →
      a + (k : Int) ∈ StatsService.solvedDates ps) ∧
    (∀ (a : Int) (n : Nat),
      (∀ k : Nat, k < n → a + (k : Int) ∈ StatsService.solvedDates ps) →
      n ≤ (StatsService._calculate_streaks ps today).2) ∧
    (ps = [] → StatsService._calculate_streaks ps today = (0, 0)) := by
  by_cases hps : ps.isEmpty
  · have hnil : ps = [] := List.isEmpty_iff.mp hps
    subst hnil
    refine ⟨fun k hk => absurd hk (by simp [StatsService._calculate_streaks]), ?_, ⟨0, ?_⟩,
      ?_, fun _ => rfl⟩
    · simp [StatsService._calculate_streaks, StatsService.solvedDates]
    · intro k hk
      exact absurd hk (by simp [StatsService._calculate_streaks])
    · intro a n hr
      rcases Nat.eq_zero_or_pos n with rfl | hn
      · simp [StatsService._calculate_streaks]
      · have := hr 0 (by omega)
        simp [StatsService.solvedDates] at this
  · have hne : ps ≠ [] := by
      intro h
      rw [h] at hps
      exact hps rfl
    cases hd : StatsService.solvedDates ps with
    | nil => exact absurd hd (solvedDates_ne_nil ps hne)
    | cons d0 rest =>
      have hsort : List.Sorted (· < ·) (d0 :: rest) := hd ▸ solvedDates_sorted ps
      have hnd : (d0 :: rest).Nodup := hd ▸ solvedDates_nodup ps
      obtain ⟨hach, hub⟩ := calcLongest_bounds d0 rest hsort
      obtain ⟨hcura, hcurb⟩ := curGo_spec (d0 :: rest) hnd (d0 :: rest).length today
        (List.length_filter_le _ _)
      have hcur_eq : (StatsService._calculate_streaks ps today).1
          = StatsService.curGo (d0 :: rest) (d0 :: rest).length today := by
        simp [StatsService._calculate_streaks, hps, hd]
      have hlong_eq : (StatsService._calculate_streaks ps today).2
          = max (StatsService.streakGo d0 1 1 rest) 1 := by
        simp [StatsService._calculate_streaks, hps, hd]
      have hmax1 : max (StatsService.streakGo d0 1 1 rest) 1
          = StatsService.streakGo d0 1 1 rest :=
        Nat.max_eq_left (streakGo_ge rest d0 1 1)
      refine ⟨?_, ?_, ?_, ?_, fun h => absurd h hne⟩
      · intro k hk
        rw [hcur_eq] at hk
        exact hcura k hk
      · rw [hcur_eq]
        exact hcurb
      · obtain ⟨a, ha⟩ := hach
        refine ⟨a, fun k hk => ?_⟩
        rw [hlong_eq, hmax1] at hk
        exact ha k hk
      · intro a n hr
        rw [hlong_eq, hmax1]
        exact hub a n hr

/-- The current-streak field of `calculate_stats` is the first component
of `_calculate_streaks`. -/
theorem calculate_stats_current (ps : List SolvedProblem) (today : Int) :
    (StatsService.calculate_stats ps today).current_streak
      = (StatsService._calculate_streaks ps today).1 := by
  by_cases hps : ps.isEmpty
  · have hnil : ps = [] := List.isEmpty_iff.mp hps
    subst hnil
    rfl
  · simp [StatsService.calculate_stats, hps]

/-- The longest-streak field of `calculate_stats` is the second component
of `_calculate_streaks`. -/
theorem calculate_stats_longest (ps : List SolvedProblem) (today : Int) :
    (StatsService.calculate_stats ps today).longest_streak
      = (StatsService._calculate_streaks ps today).2 := by
  by_cases hps : ps.isEmpty
  · have hnil : ps = [] := List.isEmpty_iff.mp hps
    subst hnil
    rfl
  · simp [StatsService.calculate_stats, hps]

/-- C1: the statistics engine reduces the ledger to the set of distinct
calendar dates carrying at least one solve (`solvedDates`, duplicate-free,
membership iff some solve has that completion date); the current streak is
exactly the number of consecutive dates present walking backward one day
at a time from today (so 0 when today is absent), the longest streak is
exactly the length of the longest run of calendar-consecutive dates in the
set, and the empty ledger yields 0 and 0. -/
theorem streaks_spec (ps : List SolvedProblem) (today : Int) :
    (∀ k : Nat, k < (StatsService.calculate_stats ps today).current_streak →
      today - (k : Int) ∈ StatsService.solvedDates ps) ∧
    (today - (((StatsService.calculate_stats ps today).current_streak : Nat) : Int)
      ∉ StatsService.solvedDates ps) ∧
    (∃ a : Int, ∀ k : Nat, k < (StatsService.calculate_stats ps today).longest_streak →
      a + (k : Int) ∈ StatsService.solvedDates ps) ∧
    (∀ (a : Int) (n : Nat),
      (∀ k : Nat, k < n → a + (k : Int) ∈ StatsService.solvedDates ps) →
      n ≤ (StatsService.calculate_stats ps today).longest_streak) ∧
    (ps = [] → (StatsService.calculate_stats ps today).current_streak = 0 ∧
      (StatsService.calculate_stats ps today).longest_streak = 0) ∧
    (∀ x : Int, x ∈ StatsService.solvedDates ps ↔
      ∃ p ∈ ps, dateOf p.completed_at = x) ∧
    (StatsService.solvedDates ps).Nodup := by
  obtain ⟨h1, h2, h3, h4, h5⟩ := streaks_char ps today
  rw [calculate_stats_current, calculate_stats_longest]
  refine ⟨h1, h2, h3, h4, fun h => ?_, fun x => solvedDates_mem ps x, solvedDates_nodup ps⟩
  rw [h5 h]
  exact ⟨rfl, rfl⟩

/-- C1 witness: with solves on days 8, 9 and 10 the run 8..10 forces the
longest streak to be at least 3. -/
theorem streaks_spec_witness :
    3 ≤ (StatsService.calculate_stats streakSample 10).longest_streak :=
  (streaks_spec streakSample 10).2.2.2.1 8 3 (by decide)

/-- C10: the longest streak is always at least the current streak, and any
nonempty ledger has longest streak at least 1. -/
theorem streak_inequality (ps : List SolvedProblem) (today : Int) :
    (StatsService.calculate_stats ps today).current_streak
      ≤ (StatsService.calculate_stats ps today).longest_streak ∧
    (ps ≠ [] → 1 ≤ (StatsService.calculate_stats ps today).longest_streak) := by
  obtain ⟨h1, h2, h3, h4, h5⟩ := streaks_char ps today
  rw [calculate_stats_current, calculate_stats_longest]
  constructor
  · apply h4 (today - ((StatsService._calculate_streaks ps today).1 : Int) + 1)
    intro k hk
    have heq : today - ((StatsService._calculate_streaks ps today).1 : Int) + 1 + (k : Int)
        = today - (((StatsService._calculate_streaks ps today).1 - 1 - k : Nat) : Int) := by
      omega
    rw [heq]
    exact h1 _ (by omega)
  · intro hne
    cases ps with
    | nil => exact absurd rfl hne
    | cons p t =>
      have hx : dateOf p.completed_at ∈ StatsService.solvedDates (p :: t) :=
        (solvedDates_mem _ _).mpr ⟨p, by simp, rfl⟩
      apply h4 (dateOf p.completed_at) 1
      intro k hk
      match k with
      | 0 => simpa using hx

/-- C10 witness: a one-solve ledger has longest streak at least 1, and its
current streak is bounded by its longest streak. -/
theorem streak_inequality_witness :
    1 ≤ (StatsService.calculate_stats [⟨"1", "a", "a", Difficulty.Easy, 0⟩] 0).longest_streak :=
  (streak_inequality [⟨"1", "a", "a", Difficulty.Easy, 0⟩] 0).2 (by simp)
